import Mathlib

/-!
Shallow embedding of the pomodoroad route-segmentation core
(`src/unnamed/part_001`: stopover suggestion, polyline decoding, time-point
construction, interpolation, haversine distance; `src/unnamed/part_004`:
the progress-to-distance conversion of the route animator), together with
theorems checking the natural-language specification against it.

Numbers are modelled exactly: JavaScript `number` arithmetic is embedded as
`ℚ` where the source performs only field operations on decimal literals, and
as `ℝ` where the source calls transcendental `Math` functions (the haversine
distance and everything downstream of it).  JavaScript `NaN` corner cases are
noted where they can arise (see `parseDurationSeconds`).
-/

namespace Pomo

/-- A `{lat, lng}` pair as produced by `decodePolyline` and consumed by the
interpolators (source: the anonymous `{lat: number, lng: number}` records of
`part_001`). -/
structure RPoint (α : Type) where
  lat : α
  lng : α
deriving DecidableEq, Repr

/-- The `TimePoint` type of `part_001` (line 269):
`{ lat: number; lng: number; time: number }`, polymorphic in the number
type (the pipeline instantiates it at `ℝ`). -/
structure TimePoint (α : Type) where
  lat : α
  lng : α
  time : α
deriving DecidableEq, Repr

/-- The `Location` interface of `part_000`: `{lat, lng, address?}`. -/
structure Location (α : Type) where
  lat : α
  lng : α
  address : Option String
deriving DecidableEq, Repr

/-- The `SpeedSegment` interface of `part_000` (ll. 13-18). -/
structure SpeedSegment where
  startDistance : ℚ
  endDistance : ℚ
  duration : ℚ
  speed : ℚ
deriving DecidableEq, Repr

/-! ### Polyline decoding (`decodePolyline`, part_001 ll. 576-608)

The JS decoder reads 5-bit chunks with continuation bit `0x20` from
`charCodeAt`.  Reading past the end of the string yields `NaN` in JS:
`NaN - 63 = NaN`, `NaN & 0x1f = 0` (ToInt32), and `NaN >= 0x20` is false, so
an out-of-range read contributes no bits and terminates the current chunk
group.  The embedding works on the list of char codes and models the
out-of-range read as the `[]` case. -/

/-- One `do { b = encoded.charCodeAt(index++) - 63; result |= (b & 0x1f) <<
shift; shift += 5; } while (b >= 0x20)` group.  Returns the accumulated
`result` and the remaining char codes.  The JS bit operations are rendered
arithmetically: `b & 0x1f` takes the low 5 bits of the 32-bit two's-complement
representation of `b`, which is the mathematical `b mod 32` (`Int.emod`); and
`result |= (b & 0x1f) << shift` ORs a 5-bit value into bit positions
`[shift, shift+5)` of `result`, all of which are zero (every previously
written bit lies below `shift`, which grows by 5 per chunk), so the OR equals
addition of `(b mod 32) * 2 ^ shift`.  (JS would wrap the shift at 32 bits;
that needs a 7-chunk group, beyond the 32-bit coordinate deltas the format
carries, and is not modelled.) -/
def decodeChunks : List Nat → Nat → Int → Int × List Nat
  | [], _, acc => (acc, [])
  | c :: rest, shift, acc =>
    let b : Int := (c : Int) - 63
    let acc' : Int := acc + Int.emod b 32 * 2 ^ shift
    if 0x20 ≤ b then decodeChunks rest (shift + 5) acc' else (acc', rest)

/-- Zig-zag decoding: `(result & 1) !== 0 ? ~(result >> 1) : result >> 1`,
with JS `~x = -x - 1` and `>> 1` arithmetic shift. -/
def zigzag (result : Int) : Int :=
  if result % 2 ≠ 0 then -(result / 2) - 1 else result / 2

theorem decodeChunks_length_le :
    ∀ (l : List Nat) (shift : Nat) (acc : Int),
      (decodeChunks l shift acc).2.length ≤ l.length := by
  intro l
  induction l with
  | nil => intro shift acc; simp [decodeChunks]
  | cons c rest ih =>
    intro shift acc
    simp only [decodeChunks]
    split
    · exact le_trans (ih _ _) (Nat.le_succ _)
    · simp

/-- Each chunk group consumes at least one char code: on a nonempty input the
remainder is no longer than the tail. -/
theorem decodeChunks_cons_length_le (c : Nat) (rest : List Nat) (shift : Nat)
    (acc : Int) : (decodeChunks (c :: rest) shift acc).2.length ≤ rest.length := by
  simp only [decodeChunks]
  split
  · exact decodeChunks_length_le _ _ _
  · simp

/-- The main decoding loop of `decodePolyline` (`while (index < len)` body),
carrying the running `lat`/`lng` accumulators.  The first argument is fuel
bounding the number of outer iterations; the JS loop terminates because each
iteration consumes at least one character, so `decodePolyline` passes the
code-list length as fuel and the `0, _ :: _` case is never reached
(`decodePoints_fuel_irrel` shows any sufficient fuel gives the same result).
Structural recursion on fuel keeps the definition kernel-reducible. -/
def decodePoints : Nat → List Nat → Int → Int → List (RPoint ℚ)
  | _, [], _, _ => []
  | 0, _ :: _, _, _ => []
  | fuel + 1, c :: rest, lat, lng =>
    let r1 := decodeChunks (c :: rest) 0 0
    let lat' := lat + zigzag r1.1
    let r2 := decodeChunks r1.2 0 0
    let lng' := lng + zigzag r2.1
    ⟨(lat' : ℚ) / 100000, (lng' : ℚ) / 100000⟩ :: decodePoints fuel r2.2 lat' lng'

theorem decodePoints_fuel_irrel :
    ∀ (f₁ f₂ : Nat) (l : List Nat) (lat lng : Int), l.length ≤ f₁ →
      l.length ≤ f₂ → decodePoints f₁ l lat lng = decodePoints f₂ l lat lng := by
  intro f₁
  induction f₁ with
  | zero =>
    intro f₂ l lat lng h1 _
    have : l = [] := List.eq_nil_of_length_eq_zero (Nat.le_zero.mp h1)
    subst this
    cases f₂ <;> rfl
  | succ f ih =>
    intro f₂ l lat lng h1 h2
    cases l with
    | nil => cases f₂ <;> rfl
    | cons c rest =>
      cases f₂ with
      | zero => exact absurd h2 (by simp)
      | succ f' =>
        simp only [decodePoints]
        have hr2 : (decodeChunks (decodeChunks (c :: rest) 0 0).2 0 0).2.length ≤ rest.length :=
          le_trans (decodeChunks_length_le _ _ _) (decodeChunks_cons_length_le c rest 0 0)
        have h1' : (decodeChunks (decodeChunks (c :: rest) 0 0).2 0 0).2.length ≤ f :=
          le_trans hr2 (Nat.succ_le_succ_iff.mp (by simpa using h1))
        have h2' : (decodeChunks (decodeChunks (c :: rest) 0 0).2 0 0).2.length ≤ f' :=
          le_trans hr2 (Nat.succ_le_succ_iff.mp (by simpa using h2))
        rw [ih _ _ _ _ h1' h2']

/-- `decodePolyline` (part_001 ll. 576-608). -/
def decodePolyline (encoded : String) : List (RPoint ℚ) :=
  decodePoints (encoded.data.map Char.toNat).length (encoded.data.map Char.toNat) 0 0

/-! ### Duration parsing (`parseDurationSeconds`, part_001 ll. 417-428)

`duration.match(/([\d.]+)s/)` finds the first maximal run of digits and dots
immediately followed by `'s'`; `parseFloat` then reads the longest numeric
prefix (`digits* ('.' digits*)?`) of that run, `NaN` if it contains no digit;
`Math.round` rounds half toward `+∞`.  The spec's oracle contract (§6) reads:
duration strings are always `"<integer>s"`, and "malformed/missing duration
parses to 0".  The model implements that contract: a matched token that
`parseFloat` turns into JS `NaN` (e.g. the token of `".s"`) is mapped to `0`.
The source itself distinguishes that `NaN` from `0` in two places:
* the `Number.isFinite` guard of `evaluateLegDurations`, modelled faithfully
  by `parseDurationFinite`;
* the `stepDuration === 0` tests of `buildTimePoints`/`processStep`, where
  the source lets the `NaN` through into the emitted sample times instead of
  parsing it to 0 as §6 requires — a defect of the source recorded under
  claim C3 (`code_bug`); the model follows the spec's parse-to-0 reading
  there (see `processStep`).
Elsewhere (`calculateIdealStopovers`' total duration) `NaN` and `0` are
observably equivalent: either way `idealSegments` is 1 and the stopover list
is empty.  (A `parseFloat` overflow to `Infinity` from an astronomically
long digit run is likewise not modelled.) -/

/-- Is this character matched by the regex class `[\d.]`? -/
def isDigitOrDot (c : Char) : Bool :=
  c.isDigit || c = '.'

/-- The regex scan of `/([\d.]+)s/`: try each start position left to right;
at a position starting a `[\d.]` run, the greedy run must be followed by
`'s'` (no shorter match is possible because `'s'` is outside the class),
else scanning resumes at the next position. -/
def firstDurationToken : List Char → Option (List Char)
  | [] => none
  | c :: rest =>
    if isDigitOrDot c then
      match (c :: rest).dropWhile isDigitOrDot with
      | 's' :: _ => some ((c :: rest).takeWhile isDigitOrDot)
      | _ => firstDurationToken rest
    else firstDurationToken rest

/-- Digit list to natural number (the usual positional read). -/
def digitsToNat (cs : List Char) : Nat :=
  cs.foldl (fun n c => 10 * n + (c.toNat - '0'.toNat)) 0

/-- `parseFloat` restricted to a nonempty run of digits and dots: longest
valid prefix `digits* ('.' digits*)?`; `none` models `NaN` (no digit in the
prefix). -/
def parseFloatDigitsDot (cs : List Char) : Option ℚ :=
  let intDigits := cs.takeWhile Char.isDigit
  let rest := cs.dropWhile Char.isDigit
  let fracDigits := match rest with
    | '.' :: r => r.takeWhile Char.isDigit
    | _ => []
  if intDigits = [] ∧ fracDigits = [] then none
  else some ((digitsToNat intDigits : ℚ) + (digitsToNat fracDigits : ℚ) / 10 ^ fracDigits.length)

/-- JS `Math.round`: round half toward `+∞`. -/
def jsRound (x : ℚ) : Int :=
  ⌊x + 1 / 2⌋

/-- `parseDurationSeconds` (part_001 ll. 417-428).  `none` argument models a
missing/undefined duration string (`if (!duration) return 0`). -/
def parseDurationSeconds (duration : Option String) : Int :=
  match duration with
  | none => 0
  | some s =>
    match firstDurationToken s.data with
    | none => 0
    | some tok =>
      match parseFloatDigitsDot tok with
      | none => 0      -- JS: NaN; see the section comment
      | some q => jsRound q

/-- Does `Number.isFinite(Math.round(parseFloat(match[1])))` hold for this
duration string?  (`true` except when the matched run parses to `NaN`; a
missing string or missing match yields `0`, which is finite.) -/
def parseDurationFinite (duration : Option String) : Bool :=
  match duration with
  | none => true
  | some s =>
    match firstDurationToken s.data with
    | none => true
    | some tok => (parseFloatDigitsDot tok).isSome

/-- JS `a || b` on numbers, for operands that are never `NaN`: `a` is falsy
exactly when it is `0`. -/
def jsOr (a b : Int) : Int :=
  if a = 0 then b else a

/-! ### Segment counting (`getIdealSegmentCount`, part_001 ll. 52-65) -/

/-- `getIdealSegmentCount` (part_001 ll. 52-65).  `IDEAL_POMODORO_SECONDS =
25 * 60 = 1500`.  The `Number.isFinite` test is always true in the rational
model (no `NaN`/`Infinity` reaches this function: its argument is a rounded
parse result, see `parseDurationSeconds`), leaving the `<= 0` guard. -/
def getIdealSegmentCount (totalDurationSeconds : ℚ) : Int :=
  if totalDurationSeconds ≤ 0 then 1
  else
    let rawSegments := totalDurationSeconds / 1500
    if rawSegments < 1 then 1
    else max 1 (jsRound rawSegments)

/-! ### Haversine distance (`calculateDistance`, part_001 ll. 611-624)

The only transcendental part of the core; embedded over `ℝ`. -/

/-- JS `Math.atan2(y, x)` on the reals (signed-zero distinctions do not
exist in `ℝ`; `atan2(0, 0) = 0` as in JS). -/
noncomputable def jsAtan2 (y x : ℝ) : ℝ :=
  if 0 < x then Real.arctan (y / x)
  else if x < 0 then
    (if 0 ≤ y then Real.arctan (y / x) + Real.pi else Real.arctan (y / x) - Real.pi)
  else
    (if 0 < y then Real.pi / 2 else if y < 0 then -(Real.pi / 2) else 0)

/-- `calculateDistance` (part_001 ll. 611-624): haversine on a sphere of
radius 6 371 000 m. -/
noncomputable def calculateDistance (lat1 lng1 lat2 lng2 : ℝ) : ℝ :=
  let R : ℝ := 6371000
  let φ1 := lat1 * Real.pi / 180
  let φ2 := lat2 * Real.pi / 180
  let Δlat := (lat2 - lat1) * Real.pi / 180
  let Δlng := (lng2 - lng1) * Real.pi / 180
  let a := Real.sin (Δlat / 2) * Real.sin (Δlat / 2) +
    Real.cos φ1 * Real.cos φ2 * Real.sin (Δlng / 2) * Real.sin (Δlng / 2)
  let c := 2 * jsAtan2 (Real.sqrt a) (Real.sqrt (1 - a))
  R * c

/-! ### Time interpolation (`getPointAtTime`, part_001 ll. 514-542)

Polymorphic over the number type: the stopover pipeline instantiates it at
`ℝ`, concrete evaluations at `ℚ`. -/

/-- The scan loop of `getPointAtTime` (`for (let i = 1; i < points.length;
i++)`), carrying the point at index `i - 1` as `prev`; when the loop runs off
the end the source returns `points[points.length - 1]`, which is `prev`. -/
def gpatLoop {α : Type} [LinearOrderedField α] (targetTime : α)
    (prev : TimePoint α) : List (TimePoint α) → RPoint α
  | [] => ⟨prev.lat, prev.lng⟩
  | cur :: rest =>
    if targetTime ≤ cur.time then
      let interval := cur.time - prev.time
      if interval ≤ 0 then ⟨cur.lat, cur.lng⟩
      else
        let r := min (max ((targetTime - prev.time) / interval) 0) 1
        ⟨prev.lat + (cur.lat - prev.lat) * r, prev.lng + (cur.lng - prev.lng) * r⟩
    else gpatLoop targetTime cur rest

/-- `getPointAtTime` (part_001 ll. 514-542). -/
def getPointAtTime {α : Type} [LinearOrderedField α] (points : List (TimePoint α))
    (targetTime : α) : Option (RPoint α) :=
  match points with
  | [] => none
  | p₀ :: rest =>
    if targetTime ≤ p₀.time then some ⟨p₀.lat, p₀.lng⟩
    else some (gpatLoop targetTime p₀ rest)

/-- Index of the first sample whose time is `≥ targetTime` ("scan forward to
the first sample whose time ≥ targetTime", spec §4.5). -/
def firstIdxAtOrAfter {α : Type} [LinearOrderedField α] (targetTime : α) :
    List (TimePoint α) → Option Nat
  | [] => none
  | p :: rest =>
    if targetTime ≤ p.time then some 0
    else (firstIdxAtOrAfter targetTime rest).map (· + 1)

/-- `pointAtTime` as the specification words it (§4.5): first point when
`targetTime ≤ series[0].time`; otherwise interpolate between the sample
preceding the first sample whose time ≥ `targetTime` and that sample, with
fraction `(targetTime - prev.time) / (cur.time - prev.time)` clamped to
`[0,1]`, returning the later point outright on a zero-duration interval; the
last point when `targetTime` exceeds the last sample's time. -/
def pointAtTimeSpec {α : Type} [LinearOrderedField α] (points : List (TimePoint α))
    (targetTime : α) : Option (RPoint α) :=
  match points with
  | [] => none
  | p₀ :: _ =>
    if targetTime ≤ p₀.time then some ⟨p₀.lat, p₀.lng⟩
    else
      match firstIdxAtOrAfter targetTime points with
      | none => (points.getLast?).map (fun p => ⟨p.lat, p.lng⟩)
      | some i =>
        match points[i - 1]?, points[i]? with
        | some prev, some cur =>
          if cur.time - prev.time ≤ 0 then some ⟨cur.lat, cur.lng⟩
          else
            let r := min (max ((targetTime - prev.time) / (cur.time - prev.time)) 0) 1
            some ⟨prev.lat + (cur.lat - prev.lat) * r, prev.lng + (cur.lng - prev.lng) * r⟩
        | _, _ => none

/-! ### Distance interpolation (`getPointAtDistance`, part_001 ll. 544-573)

Used inside the stopover pipeline, where the polyline vertices are exact
decoded rationals but the cumulative distances are real (haversine). -/

/-- The scan loop of `getPointAtDistance` (`for (let i = 1; i <
distances.length; i++)`), walking the distance table and the polyline
in lockstep (the caller builds them with equal lengths).  Returns `none`
when the loop runs off the end. -/
noncomputable def gpadLoop (targetDistance : ℝ) :
    RPoint ℚ → ℝ → List (RPoint ℚ) → List ℝ → Option (RPoint ℝ)
  | _, _, [], _ => none
  | _, _, _, [] => none
  | pPrev, dPrev, p :: ps, d :: ds =>
    if targetDistance ≤ d then
      let span := d - dPrev
      let r := if 0 < span then (targetDistance - dPrev) / span else 0
      some ⟨(pPrev.lat : ℝ) + ((p.lat : ℝ) - (pPrev.lat : ℝ)) * r,
            (pPrev.lng : ℝ) + ((p.lng : ℝ) - (pPrev.lng : ℝ)) * r⟩
    else gpadLoop targetDistance p d ps ds

/-- `getPointAtDistance` (part_001 ll. 544-573). -/
noncomputable def getPointAtDistance (polyline : List (RPoint ℚ)) (distances : List ℝ)
    (targetDistance : ℝ) : Option (RPoint ℝ) :=
  match polyline with
  | [] => none
  | p₀ :: pRest =>
    if targetDistance ≤ 0 ∨ distances = [] then some ⟨(p₀.lat : ℝ), (p₀.lng : ℝ)⟩
    else
      match distances with
      | [] => some ⟨(p₀.lat : ℝ), (p₀.lng : ℝ)⟩
      | d₀ :: dRest =>
        match gpadLoop targetDistance p₀ d₀ pRest dRest with
        | some r => some r
        | none =>
          let pLast := ((p₀ :: pRest).getLast?).getD p₀
          some ⟨(pLast.lat : ℝ), (pLast.lng : ℝ)⟩

/-! ### Progress-to-distance conversion (`getPositionAtProgress`,
part_004 ll. 726-753)

The block of the animator that converts a journey-progress fraction into a
target cumulative distance: with speed segments, elapsed time
`prog * totalDuration` is walked through the segment list; without, constant
speed `prog * totalDistance`. -/

/-- The `for (const segment of speedSegments)` walk of
`getPositionAtProgress`: `targetDistance` starts at `0`; a segment containing
the elapsed time yields `segment.startDistance + timeInSegment *
segment.speed` and breaks; otherwise the accumulator advances and
`targetDistance` becomes `segment.endDistance`. -/
def segWalk (elapsedTime : ℚ) : ℚ → ℚ → List SpeedSegment → ℚ
  | _, target, [] => target
  | timeAccumulated, target, seg :: rest =>
    if elapsedTime ≤ timeAccumulated + seg.duration then
      seg.startDistance + (elapsedTime - timeAccumulated) * seg.speed
    else segWalk elapsedTime (timeAccumulated + seg.duration) seg.endDistance rest

/-- The progress-to-distance conversion inside `getPositionAtProgress`
(part_004 ll. 726-753): `targetDistance` as a function of the progress
fraction, the speed segments, and the route's total distance
(`cumulativeDistances[cumulativeDistances.length - 1]`). -/
def progressTargetDistance (speedSegments : List SpeedSegment) (totalDistance : ℚ)
    (prog : ℚ) : ℚ :=
  if 0 < speedSegments.length then
    let totalDuration := speedSegments.foldl (fun sum seg => sum + seg.duration) 0
    let elapsedTime := prog * totalDuration
    segWalk elapsedTime 0 0 speedSegments
  else prog * totalDistance

/-! ### Reverse geocoding (`geocodeStopoverCoordinates`, part_001 ll. 382-415)

The geocoding oracle is a response trace indexed by call number (one call per
stopover, in order).  A response of `some s` is the first result's
`formatted_address`; `none` covers both a thrown fetch/parse error and a
response with no results.  JS `x || fallback` also treats the empty string as
falsy. -/

/-- JS `Number.prototype.toFixed(4)` (exact, per the ES spec: the integer
`n` minimizing `|n / 10^4 - x|`, ties to the larger `n`, sign handled first). -/
def toFixed4 {α : Type} [LinearOrderedField α] [FloorRing α] (x : α) : String :=
  if x < 0 then "-" ++ toFixed4 (-x)
  else
    let n := ⌊x * 10 ^ 4 + 1 / 2⌋.toNat
    toString (n / 10 ^ 4) ++ "." ++ (Nat.toDigits 10 (n % 10 ^ 4)).asString.leftpad 4 '0'
termination_by if x < 0 then 1 else 0
decreasing_by
  simp_all
  linarith

/-- The fallback label `` `Stop ${index + 1} (${lat.toFixed(4)},
${lng.toFixed(4)})` ``. -/
def fallbackLabel {α : Type} [LinearOrderedField α] [FloorRing α]
    (index : Nat) (point : RPoint α) : String :=
  "Stop " ++ toString (index + 1) ++ " (" ++ toFixed4 point.lat ++ ", " ++
    toFixed4 point.lng ++ ")"

/-- The address chosen for one stopover:
`geocodeData.results?.[0]?.formatted_address || fallback`, with the whole
call falling back to the same label when the fetch throws. -/
def geocodeAddress {α : Type} [LinearOrderedField α] [FloorRing α]
    (response : Option String) (index : Nat) (point : RPoint α) : String :=
  match response with
  | some s => if s = "" then fallbackLabel index point else s
  | none => fallbackLabel index point

/-- The `for (let index = 0; ...)` loop of `geocodeStopoverCoordinates`. -/
def geocodeLoop {α : Type} [LinearOrderedField α] [FloorRing α]
    (oracle : Nat → Option String) : Nat → List (RPoint α) → List (Location α)
  | _, [] => []
  | index, point :: rest =>
    ⟨point.lat, point.lng, some (geocodeAddress (oracle index) index point)⟩ ::
      geocodeLoop oracle (index + 1) rest

/-- `geocodeStopoverCoordinates` (part_001 ll. 382-415). -/
def geocodeStopoverCoordinates {α : Type} [LinearOrderedField α] [FloorRing α]
    (stopoverCoords : List (RPoint α)) (oracle : Nat → Option String) :
    List (Location α) :=
  geocodeLoop oracle 0 stopoverCoords

/-! ### Route oracle response shape (spec §6)

The fields of the `computeRoutes` JSON that part_001 reads.  `Option`
models a missing/undefined field; `distanceMeters` is `some` exactly when the
field is present and a number (`typeof step?.distanceMeters === 'number'`). -/

/-- One step of a leg: `{ distanceMeters, staticDuration, duration,
polyline: { encodedPolyline } }`. -/
structure Step where
  polylineEncoded : Option String
  distanceMeters : Option ℚ
  duration : Option String
  staticDuration : Option String

/-- One leg: part_001's `buildTimePoints` reads only `leg.steps`
(possibly absent). -/
structure Leg where
  steps : Option (List Step)

/-- One route of the response: `duration`, `polyline.encodedPolyline`,
`legs`. -/
structure RouteResp where
  duration : Option String
  encodedPolyline : Option String
  legs : Option (List Leg)

/-! ### Time-point construction (`buildTimePoints`, part_001 ll. 430-512)

The builder's mutable state — the `points` array and the `lastLat`/`lastLng`
deduplication pair — is threaded explicitly; the running `cumulativeTime` is
carried alongside as the second component of the accumulator. -/

/-- The closure state of `buildTimePoints`: the `points` array and the
`lastLat`/`lastLng` pair (JS `null` as `none`). -/
structure BTState where
  points : List (TimePoint ℝ)
  lastLat : Option ℝ
  lastLng : Option ℝ

/-- `points[points.length - 1].time = time` (no-op on an empty array,
matching the `points.length > 0` guard). -/
def setLastTime : List (TimePoint ℝ) → ℝ → List (TimePoint ℝ)
  | [], _ => []
  | [p], t => [⟨p.lat, p.lng, t⟩]
  | p :: q :: rest, t => p :: setLastTime (q :: rest) t

/-- `pushPoint` (part_001 ll. 440-451): coincident consecutive coordinates
collapse into the previous sample, whose time is updated to the later value. -/
noncomputable def pushPoint (st : BTState) (lat lng : ℝ) (time : ℝ) : BTState :=
  if st.lastLat = some lat ∧ st.lastLng = some lng then
    { st with points := setLastTime st.points time }
  else
    { points := st.points ++ [⟨lat, lng, time⟩], lastLat := some lat, lastLng := some lng }

/-- The per-vertex distances of a step polyline (`stepDistances`,
part_001 ll. 467-473). -/
noncomputable def consecDistances : List (RPoint ℚ) → List ℝ
  | p :: q :: rest =>
    calculateDistance (p.lat : ℝ) (p.lng : ℝ) (q.lat : ℝ) (q.lng : ℝ) ::
      consecDistances (q :: rest)
  | _ => []

/-- The `for (let i = 1; i < stepPolyline.length; i++)` vertex loop
(part_001 ll. 496-503): each vertex advances `cumulativeTime` by the step
duration weighted by the vertex's share of the step distance, then pushes. -/
noncomputable def vertexFold (stepDuration stepTotalDistance : ℝ) :
    List (RPoint ℚ × ℝ) → BTState × ℝ → BTState × ℝ
  | [], acc => acc
  | (p, segmentDistance) :: rest, (st, cumulativeTime) =>
    let frac := segmentDistance / stepTotalDistance
    let deltaTime := stepDuration * frac
    let ct' := cumulativeTime + deltaTime
    vertexFold stepDuration stepTotalDistance rest
      (pushPoint st (p.lat : ℝ) (p.lng : ℝ) ct', ct')

/-- The body of `leg.steps?.forEach((step) => ...)` (part_001 ll. 454-504).
Divergence from the source on a malformed duration string (token with no
digit, e.g. `".s"`): there the source's `parseDurationSeconds` yields `NaN`,
so the `stepDuration === 0 && declaredDistance > 0` fallback test is false
and the `NaN` multiplies into every subsequent `cumulativeTime` and emitted
sample time.  This embedding follows spec §6 ("malformed/missing duration
parses to 0") and therefore takes the `declaredDistance / 13.4` fallback on
such a step; the divergence is the code bug recorded under claim C3. -/
noncomputable def processStep (acc : BTState × ℝ) (step : Step) : BTState × ℝ :=
  let st := acc.1
  let cumulativeTime := acc.2
  let stepPolyline := (step.polylineEncoded).elim [] decodePolyline
  match stepPolyline with
  | [] =>
    let emptyDuration := jsOr (parseDurationSeconds step.duration)
      (parseDurationSeconds step.staticDuration)
    (st, cumulativeTime + (emptyDuration : ℝ))
  | p₀ :: pRest =>
    let stepDistances := consecDistances (p₀ :: pRest)
    let stepTotalDistance := stepDistances.sum
    let declaredDistance : ℝ := match step.distanceMeters with
      | some d => if 0 < d then (d : ℝ) else stepTotalDistance
      | none => stepTotalDistance
    let parsed := jsOr (parseDurationSeconds step.duration)
      (parseDurationSeconds step.staticDuration)
    let stepDuration : ℝ :=
      if parsed = 0 ∧ 0 < declaredDistance then declaredDistance / 13.4
      else (parsed : ℝ)
    let st1 := if st.points = [] then pushPoint st (p₀.lat : ℝ) (p₀.lng : ℝ) cumulativeTime
      else st
    if stepDuration = 0 ∨ stepTotalDistance = 0 then
      let ct' := cumulativeTime + stepDuration
      let pLast := (p₀ :: pRest).getLast (List.cons_ne_nil p₀ pRest)
      (pushPoint st1 (pLast.lat : ℝ) (pLast.lng : ℝ) ct', ct')
    else
      vertexFold stepDuration stepTotalDistance (List.zip pRest stepDistances)
        (st1, cumulativeTime)

/-- `route.legs.forEach((leg) => leg.steps?.forEach(...))`
(part_001 ll. 453-505). -/
noncomputable def processLeg (acc : BTState × ℝ) (leg : Leg) : BTState × ℝ :=
  (leg.steps.getD []).foldl processStep acc

/-- `if (points.length > 0) points[0].time = 0` (part_001 ll. 507-509). -/
def setHeadTime : List (TimePoint ℝ) → ℝ → List (TimePoint ℝ)
  | [], _ => []
  | p :: rest, t => ⟨p.lat, p.lng, t⟩ :: rest

/-- `buildTimePoints` (part_001 ll. 430-512). -/
noncomputable def buildTimePoints (route : RouteResp) : List (TimePoint ℝ) :=
  match route.legs with
  | none => []
  | some legs =>
    if legs.length = 0 then []
    else
      let res := legs.foldl processLeg (⟨[], none, none⟩, 0)
      setHeadTime res.1.points 0

/-! ### Stopover suggestion (`calculateIdealStopovers`, part_001 ll. 70-217)

The network boundary is modelled as oracles over response traces:
* `routeOracle : Option (List RouteResp)` — the initial `computeRoutes`
  response's `routes` array; `none` is a failed fetch / non-2xx response
  (the `throw` lands in the outer `catch`, which returns `[]`).
* `legOracle : Nat → List (RPoint ℝ) → Option (List (Option String))` — the
  per-attempt re-query of `evaluateLegDurations`: given the attempt number
  and the candidate intermediate waypoints, the legs of the response, each
  carrying its `duration` string; `none` is a failed call or a response
  without legs.
* `geoOracle : Nat → Option String` — the reverse-geocoding response trace
  (see `geocodeStopoverCoordinates`).
`origin`, `destination` and the API key flow only into the requests, never
into the computation, so the embedding carries the two locations as inert
parameters and drops the key. -/

/-- The cumulative-distance table of part_001 ll. 136-147: `distances`
starts as `[0]` and accumulates the haversine distance between consecutive
decoded vertices. -/
noncomputable def cumulTail (running : ℝ) : List (RPoint ℚ) → List ℝ
  | p :: q :: rest =>
    let total := running +
      calculateDistance (p.lat : ℝ) (p.lng : ℝ) (q.lat : ℝ) (q.lng : ℝ)
    total :: cumulTail total (q :: rest)
  | _ => []

/-- `distances` (part_001 ll. 136-147). -/
noncomputable def cumulDistances (polyline : List (RPoint ℚ)) : List ℝ :=
  0 :: cumulTail 0 polyline

/-- `generateStopoverCoordinates` (part_001 ll. 281-313): one candidate per
`i = 1..stopCount`, placed at elapsed time `i * totalDuration/segmentCount`
when genuine time data exists, else at the equivalent fractional distance,
dropped when both interpolators decline. -/
noncomputable def generateStopoverCoordinates (segmentCount : Int)
    (totalDurationSeconds : Int) (totalDistanceMeters : ℝ)
    (polyline : List (RPoint ℚ)) (distances : List ℝ)
    (timePoints : List (TimePoint ℝ)) (hasTimeData : Bool) : List (RPoint ℝ) :=
  let stopCount := max (segmentCount - 1) 0
  if stopCount = 0 ∨ totalDurationSeconds ≤ 0 then []
  else
    let segmentDurationSeconds : ℝ := (totalDurationSeconds : ℝ) / (segmentCount : ℝ)
    ((List.range stopCount.toNat).map (· + 1)).filterMap (fun (i : ℕ) =>
      let targetTime := segmentDurationSeconds * (i : ℝ)
      let point := if hasTimeData then getPointAtTime timePoints targetTime else none
      match point with
      | some p => some p
      | none =>
        if 0 < totalDistanceMeters then
          let targetDistance := totalDistanceMeters / (segmentCount : ℝ) * (i : ℝ)
          getPointAtDistance polyline distances targetDistance
        else none)

/-- `evaluateLegDurations` (part_001 ll. 315-380), as a function of the
response for its single `computeRoutes` call: `null` on a failed call or a
response without legs; otherwise the rounded per-leg durations, `null` unless
all are finite (`parseDurationFinite`; a parse can only be non-finite on a
malformed duration string, see `parseDurationSeconds`). -/
def evaluateLegDurations (response : Option (List (Option String))) :
    Option (List Int) :=
  match response with
  | none => none
  | some legs =>
    if legs.length = 0 then none
    else
      let durations := legs.map parseDurationSeconds
      if legs.all parseDurationFinite then some durations else none

/-- The refinement loop of `calculateIdealStopovers` (part_001 ll. 158-206,
`for (let attempt = 0; attempt < 4; attempt++)`).  `fuel` is the number of
remaining attempts (`4 - attempt`); `stopoverCoords` is the candidate set
carried across iterations (relevant when the attempts run out). -/
noncomputable def refineLoop
    (legOracle : Nat → List (RPoint ℝ) → Option (List (Option String)))
    (totalDuration : Int) (maxSegments : Int) (totalDistanceMeters : ℝ)
    (polyline : List (RPoint ℚ)) (distances : List ℝ)
    (timePoints : List (TimePoint ℝ)) (hasTimeData : Bool) :
    Nat → Nat → Int → List (RPoint ℝ) → List (RPoint ℝ)
  | 0, _, _, stopoverCoords => stopoverCoords
  | fuel + 1, attempt, evaluatedSegments, _ =>
    let stopCount := max (evaluatedSegments - 1) 0
    if stopCount = 0 then []
    else
      let stopoverCoords := generateStopoverCoordinates evaluatedSegments totalDuration
        totalDistanceMeters polyline distances timePoints hasTimeData
      if stopoverCoords.length < stopCount.toNat then []
      else
        match evaluateLegDurations (legOracle attempt stopoverCoords) with
        | none => stopoverCoords
        | some legDurations =>
          if legDurations.length = 0 then stopoverCoords
          else if legDurations.all (fun d => decide (1200 ≤ d ∧ d ≤ 1800)) then
            stopoverCoords
          else if legDurations.any (fun d => decide (1800 < d)) ∧
              evaluatedSegments < maxSegments then
            refineLoop legOracle totalDuration maxSegments totalDistanceMeters polyline
              distances timePoints hasTimeData fuel (attempt + 1)
              (evaluatedSegments + 1) stopoverCoords
          else if legDurations.any (fun d => decide (d < 1200)) ∧
              ⌈(totalDuration : ℚ) / 1800⌉ < evaluatedSegments then
            refineLoop legOracle totalDuration maxSegments totalDistanceMeters polyline
              distances timePoints hasTimeData fuel (attempt + 1)
              (max (evaluatedSegments - 1) 1) stopoverCoords
          else stopoverCoords

/-- `calculateIdealStopovers` (part_001 ll. 70-217). -/
noncomputable def calculateIdealStopovers (origin destination : Location ℝ)
    (maxStopovers : Option ℚ) (routeOracle : Option (List RouteResp))
    (legOracle : Nat → List (RPoint ℝ) → Option (List (Option String)))
    (geoOracle : Nat → Option String) : List (Location ℝ) :=
  match routeOracle with
  | none => []
  | some routes =>
    match routes with
    | [] => []
    | route :: _ =>
      let totalDuration := parseDurationSeconds route.duration
      let idealSegments := getIdealSegmentCount (totalDuration : ℚ)
      let normalizedMaxStopovers : Int := match maxStopovers with
        | some m => if 0 ≤ m then ⌊m⌋ else 23
        | none => 23
      let potentialStopovers := max (idealSegments - 1) 0
      let numberOfStopovers := min potentialStopovers normalizedMaxStopovers
      if numberOfStopovers ≤ 0 ∨ totalDuration ≤ 0 then []
      else
        let polyline := (route.encodedPolyline).elim [] decodePolyline
        let distances := cumulDistances polyline
        let timePoints := buildTimePoints route
        let hasTimeData := decide (1 < timePoints.length ∧
          0 < ((timePoints.getLast?).map (fun p => p.time)).getD 0)
        let totalDistanceMeters := ((distances.getLast?).getD 0)
        let maxSegments := min (normalizedMaxStopovers + 1) 24
        let evaluatedSegments₀ := min (max idealSegments 1) maxSegments
        let stopoverCoords := refineLoop legOracle totalDuration maxSegments
          totalDistanceMeters polyline distances timePoints hasTimeData 4 0
          evaluatedSegments₀ []
        if stopoverCoords.length = 0 then []
        else geocodeStopoverCoordinates stopoverCoords geoOracle

/-! ## Theorems -/

/-- C7: `decodePolyline` applied to `"_p~iF~ps|U_ulLnnqC_mqNvxq`@"` returns a
point list whose first decoded point is exactly `(38.5, -120.2)` at the 1e-5
degree quantization. -/
theorem decodePolyline_google_example_head :
    (decodePolyline "_p~iF~ps|U_ulLnnqC_mqNvxq`@").head? = some ⟨38.5, -120.2⟩ := by
  have hcodes : "_p~iF~ps|U_ulLnnqC_mqNvxq`@".data.map Char.toNat =
      [95, 112, 126, 105, 70, 126, 112, 115, 124, 85, 95, 117, 108, 76, 110, 110, 113, 67,
       95, 109, 113, 78, 118, 120, 113, 96, 64] := by decide
  simp only [decodePolyline, hcodes]
  norm_num [decodePoints, decodeChunks, zigzag, RPoint.mk.injEq]

/-- C1, counterexample: on the truncated input `"_p~iF~ps|U_"` — the Google
reference polyline cut inside the second point's latitude group, whose final
byte `'_'` has the continuation bit set — `decodePolyline` does NOT fail and
DOES emit a second point built from the incomplete delta pair (the missing
bytes of the latitude group and the entirely absent longitude group read as
zero deltas), contradicting the claim that malformed input is a fatal
`DecodeError` and no partial point is emitted. -/
theorem decodePolyline_truncated_emits_partial_point :
    decodePolyline "_p~iF~ps|U_" = [⟨38.5, -120.2⟩, ⟨38.5, -120.2⟩] := by
  have hcodes : "_p~iF~ps|U_".data.map Char.toNat =
      [95, 112, 126, 105, 70, 126, 112, 115, 124, 85, 95] := by decide
  simp only [decodePolyline, hcodes]
  norm_num [decodePoints, decodeChunks, zigzag, RPoint.mk.injEq]

/-- C1, amended: `decodePolyline` never signals an error.  A read past the
end of the string contributes no bits and terminates the current byte group
(JS `charCodeAt` out of range is `NaN`), so every outer iteration — including
one whose final byte group is truncated — emits a point; the decoded list is
empty exactly for the empty input string. -/
theorem decodePolyline_total_nil_iff (s : String) :
    decodePolyline s = [] ↔ s = "" := by
  constructor
  · intro h
    cases s with
    | mk data =>
      cases data with
      | nil => rfl
      | cons c cs =>
        exfalso
        simp only [decodePolyline, List.map_cons, List.length_cons, decodePoints] at h
        exact List.cons_ne_nil _ _ h
  · intro h
    subst h
    rfl

/-- C6: for the two-segment `SpeedSegmentSeries`
`[{0,1000,100,10},{1000,2000,50,20}]` (total duration 150 s), the animator's
progress-to-distance conversion yields target distance 1000 at
`p = 100/150` (the boundary exactly at the segment change) and 750 at
`p = 0.5` (elapsed 75 s, inside the first segment). -/
theorem progressTargetDistance_scenarioD :
    progressTargetDistance [⟨0, 1000, 100, 10⟩, ⟨1000, 2000, 50, 20⟩] 2000 (100 / 150) = 1000 ∧
    progressTargetDistance [⟨0, 1000, 100, 10⟩, ⟨1000, 2000, 50, 20⟩] 2000 (1 / 2) = 750 := by
  constructor <;> norm_num [progressTargetDistance, segWalk]

/-- C8: the haversine `calculateDistance` is symmetric in its two coordinate
pairs and vanishes on the diagonal. -/
theorem calculateDistance_symm_and_self_eq_zero :
    (∀ lat1 lng1 lat2 lng2 : ℝ,
      calculateDistance lat1 lng1 lat2 lng2 = calculateDistance lat2 lng2 lat1 lng1) ∧
    (∀ lat lng : ℝ, calculateDistance lat lng lat lng = 0) := by
  constructor
  · intro lat1 lng1 lat2 lng2
    have h1 : (lat2 - lat1) * Real.pi / 180 / 2 = -((lat1 - lat2) * Real.pi / 180 / 2) := by
      ring
    have h2 : (lng2 - lng1) * Real.pi / 180 / 2 = -((lng1 - lng2) * Real.pi / 180 / 2) := by
      ring
    have key : Real.sin ((lat2 - lat1) * Real.pi / 180 / 2) *
          Real.sin ((lat2 - lat1) * Real.pi / 180 / 2) +
          Real.cos (lat1 * Real.pi / 180) * Real.cos (lat2 * Real.pi / 180) *
            Real.sin ((lng2 - lng1) * Real.pi / 180 / 2) *
            Real.sin ((lng2 - lng1) * Real.pi / 180 / 2) =
        Real.sin ((lat1 - lat2) * Real.pi / 180 / 2) *
          Real.sin ((lat1 - lat2) * Real.pi / 180 / 2) +
          Real.cos (lat2 * Real.pi / 180) * Real.cos (lat1 * Real.pi / 180) *
            Real.sin ((lng1 - lng2) * Real.pi / 180 / 2) *
            Real.sin ((lng1 - lng2) * Real.pi / 180 / 2) := by
      simp only [h1, h2, Real.sin_neg]
      ring
    simp only [calculateDistance]
    rw [key]
  · intro lat lng
    simp only [calculateDistance, sub_self, zero_mul, zero_div, Real.sin_zero, mul_zero,
      zero_add, add_zero, Real.sqrt_zero, sub_zero, Real.sqrt_one]
    simp [jsAtan2, Real.arctan_zero]

/-- Any total duration of at most 1500 s (25 min), zero and negative values
included, yields a single ideal segment. -/
theorem getIdealSegmentCount_eq_one (d : ℚ) (hd : d ≤ 1500) :
    getIdealSegmentCount d = 1 := by
  unfold getIdealSegmentCount
  by_cases h0 : d ≤ 0
  · rw [if_pos h0]
  · rw [if_neg h0]
    simp only
    by_cases hr : d / 1500 < 1
    · rw [if_pos hr]
    · rw [if_neg hr]
      have h1 : d / 1500 = 1 := by
        have hle : d / 1500 ≤ 1 := by
          rw [div_le_one (by norm_num : (0:ℚ) < 1500)]
          exact hd
        exact le_antisymm hle (not_lt.mp hr)
      rw [h1]
      norm_num [jsRound]

/-- C4: `getIdealSegmentCount` returns 1 for every total duration of at most
1500 seconds (zero and negative included), and `calculateIdealStopovers`
returns the empty stopover list for any route whose parsed duration is at
most 1500 s, regardless of the `maxStopovers` argument and of the other
oracle responses. -/
theorem boundary_1500_one_segment_no_stopovers :
    (∀ d : ℚ, d ≤ 1500 → getIdealSegmentCount d = 1) ∧
    (∀ (origin destination : Location ℝ) (maxStopovers : Option ℚ) (route : RouteResp)
      (rest : List RouteResp)
      (legOracle : Nat → List (RPoint ℝ) → Option (List (Option String)))
      (geoOracle : Nat → Option String),
      parseDurationSeconds route.duration ≤ 1500 →
      calculateIdealStopovers origin destination maxStopovers (some (route :: rest))
        legOracle geoOracle = []) := by
  constructor
  · exact getIdealSegmentCount_eq_one
  · intro origin destination maxStopovers route rest legOracle geoOracle hdur
    have hq : ((parseDurationSeconds route.duration : Int) : ℚ) ≤ 1500 := by
      exact_mod_cast hdur
    have hseg := getIdealSegmentCount_eq_one _ hq
    simp only [calculateIdealStopovers, hseg]
    rw [if_pos]
    exact Or.inl (le_trans (min_le_left _ _) (by norm_num))

/-- Witness for C4 at a concrete input: a route whose duration string is
`"1000s"` (parsing to 1000 ≤ 1500) gives one segment and an empty stopover
list. -/
theorem boundary_1500_one_segment_no_stopovers_witness :
    getIdealSegmentCount 1000 = 1 ∧
    calculateIdealStopovers ⟨0, 0, none⟩ ⟨1, 1, none⟩ none
      (some [⟨some "1000s", none, none⟩]) (fun _ _ => none) (fun _ => none) = [] :=
  ⟨boundary_1500_one_segment_no_stopovers.1 1000 (by norm_num),
   boundary_1500_one_segment_no_stopovers.2 ⟨0, 0, none⟩ ⟨1, 1, none⟩ none
     ⟨some "1000s", none, none⟩ [] (fun _ _ => none) (fun _ => none) (by
      have h : firstDurationToken "1000s".data = some ['1', '0', '0', '0'] := by decide
      have h2 : List.takeWhile Char.isDigit ['1', '0', '0', '0'] = ['1', '0', '0', '0'] := by
        decide
      have h3 : List.dropWhile Char.isDigit ['1', '0', '0', '0'] = ([] : List Char) := by
        decide
      have h4 : digitsToNat ['1', '0', '0', '0'] = 1000 := by decide
      have h5 : digitsToNat [] = 0 := by decide
      show parseDurationSeconds (some "1000s") ≤ 1500
      simp only [parseDurationSeconds, h, parseFloatDigitsDot, h2, h3, h4, h5]
      rw [if_neg (by decide)]
      norm_num [jsRound])⟩

theorem geocodeLoop_length {α : Type} [LinearOrderedField α] [FloorRing α]
    (oracle : Nat → Option String) :
    ∀ (coords : List (RPoint α)) (idx : Nat),
      (geocodeLoop oracle idx coords).length = coords.length := by
  intro coords
  induction coords with
  | nil => intro idx; rfl
  | cons p rest ih =>
    intro idx
    simp only [geocodeLoop, List.length_cons, ih]

theorem geocodeLoop_getElem? {α : Type} [LinearOrderedField α] [FloorRing α]
    (oracle : Nat → Option String) :
    ∀ (coords : List (RPoint α)) (idx i : Nat),
      (geocodeLoop oracle idx coords)[i]? =
        (coords[i]?).map (fun p =>
          (⟨p.lat, p.lng, some (geocodeAddress (oracle (idx + i)) (idx + i) p)⟩ :
            Location α)) := by
  intro coords
  induction coords with
  | nil => intro idx i; rfl
  | cons p rest ih =>
    intro idx i
    cases i with
    | zero =>
      simp [geocodeLoop]
    | succ j =>
      simp only [geocodeLoop, List.getElem?_cons_succ, ih (idx + 1) j]
      have : idx + 1 + j = idx + (j + 1) := by omega
      rw [this]

/-- C10: `geocodeStopoverCoordinates` preserves the coordinates it is given —
for every input list and every outcome of the geocoding calls, the result has
the same length, the element at each index carries exactly the input lat/lng
at that index, and only the address field is added (the formatted address on
success, the synthesized `Stop N (lat, lng)` label otherwise — see
`geocodeAddress`/`fallbackLabel`). -/
theorem geocodeStopoverCoordinates_preserves_coords {α : Type}
    [LinearOrderedField α] [FloorRing α] (coords : List (RPoint α))
    (oracle : Nat → Option String) :
    (geocodeStopoverCoordinates coords oracle).length = coords.length ∧
    ∀ i : Nat, (geocodeStopoverCoordinates coords oracle)[i]? =
      (coords[i]?).map (fun p =>
        (⟨p.lat, p.lng, some (geocodeAddress (oracle i) i p)⟩ : Location α)) := by
  constructor
  · exact geocodeLoop_length oracle coords 0
  · intro i
    have h := geocodeLoop_getElem? oracle coords 0 i
    simpa using h

/-- C9: `calculateIdealStopovers` is deterministic in its inputs and oracle
responses — two invocations with identical origin, destination,
`maxStopovers`, and identical route, leg-evaluation and geocoding responses
return identical stopover lists. -/
theorem calculateIdealStopovers_deterministic
    (origin destination : Location ℝ) (maxStopovers : Option ℚ)
    (routeOracle : Option (List RouteResp))
    (legO1 legO2 : Nat → List (RPoint ℝ) → Option (List (Option String)))
    (geoO1 geoO2 : Nat → Option String)
    (hleg : ∀ n cs, legO1 n cs = legO2 n cs) (hgeo : ∀ n, geoO1 n = geoO2 n) :
    calculateIdealStopovers origin destination maxStopovers routeOracle legO1 geoO1 =
      calculateIdealStopovers origin destination maxStopovers routeOracle legO2 geoO2 := by
  have h1 : legO1 = legO2 := funext fun n => funext fun cs => hleg n cs
  have h2 : geoO1 = geoO2 := funext hgeo
  rw [h1, h2]

/-- Witness for C9 at concrete inputs and oracles. -/
theorem calculateIdealStopovers_deterministic_witness :
    calculateIdealStopovers ⟨0, 0, none⟩ ⟨1, 1, none⟩ none none
      (fun _ _ => none) (fun _ => none) =
    calculateIdealStopovers ⟨0, 0, none⟩ ⟨1, 1, none⟩ none none
      (fun _ _ => none) (fun _ => none) :=
  calculateIdealStopovers_deterministic ⟨0, 0, none⟩ ⟨1, 1, none⟩ none none
    (fun _ _ => none) (fun _ _ => none) (fun _ => none) (fun _ => none)
    (fun _ _ => rfl) (fun _ => rfl)

/-- A candidate generation pass emits at most `segmentCount - 1`
coordinates: one per loop index, each possibly dropped. -/
theorem generateStopoverCoordinates_length_le (segmentCount totalDuration : Int)
    (tdm : ℝ) (poly : List (RPoint ℚ)) (dist : List ℝ) (tp : List (TimePoint ℝ))
    (htd : Bool) :
    (generateStopoverCoordinates segmentCount totalDuration tdm poly dist tp
      htd).length ≤ (max (segmentCount - 1) 0).toNat := by
  by_cases h : max (segmentCount - 1) 0 = 0 ∨ totalDuration ≤ 0
  · unfold generateStopoverCoordinates
    rw [if_pos h]
    simp
  · unfold generateStopoverCoordinates
    rw [if_neg h]
    refine le_trans (List.length_filterMap_le _ _) ?_
    rw [List.length_map, List.length_range]

/-- The refinement loop consults the leg oracle only on candidate lists of at
most 23 waypoints: two oracles that agree on those lists drive the loop to
the same result, for any evaluated-segment count within `[1, maxSegments]`
with `maxSegments ≤ 24`. -/
theorem refineLoop_oracle_agree
    (legO1 legO2 : Nat → List (RPoint ℝ) → Option (List (Option String)))
    (totalDuration maxSegments : Int) (tdm : ℝ) (poly : List (RPoint ℚ))
    (dist : List ℝ) (tp : List (TimePoint ℝ)) (htd : Bool)
    (hagree : ∀ n cs, cs.length ≤ 23 → legO1 n cs = legO2 n cs)
    (hms : maxSegments ≤ 24) :
    ∀ (fuel attempt : Nat) (es : Int) (coords : List (RPoint ℝ)),
      1 ≤ es → es ≤ maxSegments →
      refineLoop legO1 totalDuration maxSegments tdm poly dist tp htd fuel attempt
        es coords =
      refineLoop legO2 totalDuration maxSegments tdm poly dist tp htd fuel attempt
        es coords := by
  intro fuel
  induction fuel with
  | zero =>
    intro attempt es coords h1 h2
    rfl
  | succ f ih =>
    intro attempt es coords h1 h2
    simp only [refineLoop]
    by_cases hsc : max (es - 1) 0 = 0
    · simp only [if_pos hsc]
    · simp only [if_neg hsc]
      by_cases hlen : (generateStopoverCoordinates es totalDuration tdm poly dist tp
          htd).length < (max (es - 1) 0).toNat
      · simp only [if_pos hlen]
      · simp only [if_neg hlen]
        have hcl : (generateStopoverCoordinates es totalDuration tdm poly dist tp
            htd).length ≤ 23 := by
          refine le_trans (generateStopoverCoordinates_length_le _ _ _ _ _ _ _) ?_
          omega
        rw [hagree attempt _ hcl]
        cases hed : evaluateLegDurations (legO2 attempt
            (generateStopoverCoordinates es totalDuration tdm poly dist tp htd)) with
        | none => rfl
        | some durs =>
          simp only
          by_cases hz : durs.length = 0
          · simp only [if_pos hz]
          · simp only [if_neg hz]
            by_cases hall : (durs.all fun d => decide (1200 ≤ d ∧ d ≤ 1800)) = true
            · simp only [if_pos hall]
            · simp only [if_neg hall]
              by_cases hover : (durs.any fun d => decide (1800 < d)) = true ∧
                  es < maxSegments
              · simp only [if_pos hover]
                exact ih (attempt + 1) (es + 1) _ (by omega) (by omega)
              · simp only [if_neg hover]
                by_cases hunder : (durs.any fun d => decide (d < 1200)) = true ∧
                    ⌈(totalDuration : ℚ) / 1800⌉ < es
                · simp only [if_pos hunder]
                  exact ih (attempt + 1) (max (es - 1) 1) _ (le_max_right _ _) (by omega)
                · simp only [if_neg hunder]

/-- C2: `calculateIdealStopovers` never sends more than 23 intermediate
waypoints in any route query it issues.  Stated observationally: the result
depends only on the leg oracle's responses to queries with at most 23
candidate coordinates, for every origin, destination, `maxStopovers` and
every sequence of oracle responses (internally, `evaluatedSegments` stays in
`[1, min(maxStopovers+1, 24)]` on every attempt and the candidate list has
length `evaluatedSegments - 1 ≤ 23`; see `refineLoop_oracle_agree` and
`generateStopoverCoordinates_length_le`). -/
theorem calculateIdealStopovers_waypoint_cap
    (origin destination : Location ℝ) (maxStopovers : Option ℚ)
    (routeOracle : Option (List RouteResp))
    (legO1 legO2 : Nat → List (RPoint ℝ) → Option (List (Option String)))
    (geoOracle : Nat → Option String)
    (hagree : ∀ n cs, cs.length ≤ 23 → legO1 n cs = legO2 n cs) :
    calculateIdealStopovers origin destination maxStopovers routeOracle legO1
      geoOracle =
    calculateIdealStopovers origin destination maxStopovers routeOracle legO2
      geoOracle := by
  cases routeOracle with
  | none => rfl
  | some routes =>
    cases routes with
    | nil => rfl
    | cons route rst =>
      cases maxStopovers with
      | none =>
        simp only [calculateIdealStopovers]
        split
        · rfl
        · rw [refineLoop_oracle_agree legO1 legO2 _ _ _ _ _ _ _ hagree
            (min_le_right _ _) 4 0 _ []
            (le_min (le_max_right _ _) (by norm_num))
            (min_le_right _ _)]
      | some v =>
        by_cases hv : 0 ≤ v
        · simp only [calculateIdealStopovers, if_pos hv]
          split
          · rfl
          · rw [refineLoop_oracle_agree legO1 legO2 _ _ _ _ _ _ _ hagree
              (min_le_right _ _) 4 0 _ []
              (le_min (le_max_right _ _)
                (le_min (by linarith [Int.floor_nonneg.mpr hv]) (by norm_num)))
              (min_le_right _ _)]
        · simp only [calculateIdealStopovers, if_neg hv]
          split
          · rfl
          · rw [refineLoop_oracle_agree legO1 legO2 _ _ _ _ _ _ _ hagree
              (min_le_right _ _) 4 0 _ []
              (le_min (le_max_right _ _) (by norm_num))
              (min_le_right _ _)]

/-- The scan loop of `getPointAtTime` agrees with the index-based reading of
spec §4.5, for any starting point already strictly before the target time. -/
theorem pointAtTimeSpec_cons_loop {α : Type} [LinearOrderedField α] (t : α) :
    ∀ (rest : List (TimePoint α)) (prev : TimePoint α), ¬ t ≤ prev.time →
      pointAtTimeSpec (prev :: rest) t = some (gpatLoop t prev rest) := by
  intro rest
  induction rest with
  | nil =>
    intro prev hprev
    simp [pointAtTimeSpec, firstIdxAtOrAfter, if_neg hprev, gpatLoop]
  | cons cur l ih =>
    intro prev hprev
    by_cases hcur : t ≤ cur.time
    · simp only [pointAtTimeSpec, firstIdxAtOrAfter, if_neg hprev, if_pos hcur,
        Option.map_some, gpatLoop]
      by_cases hc : cur.time ≤ prev.time <;> simp [hc]
    · have hspec := ih cur hcur
      simp only [pointAtTimeSpec, firstIdxAtOrAfter, if_neg hprev, if_neg hcur] at hspec ⊢
      simp only [gpatLoop, if_neg hcur]
      cases hfi : firstIdxAtOrAfter t l with
      | none =>
        simp only [hfi, Option.map_none] at hspec ⊢
        rw [List.getLast?_cons_cons]
        exact hspec
      | some j =>
        simp only [hfi, Option.map_some] at hspec ⊢
        simpa using hspec

/-- C5: `getPointAtTime` behaves exactly as specified — first point when the
target time is at or before the first sample, last point past the end,
otherwise linear interpolation between the sample preceding and the first
sample at-or-after the target with the fraction clamped to `[0,1]`, the later
point being returned outright on a zero-or-negative interval
(`pointAtTimeSpec` transcribes the spec's words). -/
theorem getPointAtTime_eq_spec {α : Type} [LinearOrderedField α]
    (points : List (TimePoint α)) (t : α) :
    getPointAtTime points t = pointAtTimeSpec points t := by
  cases points with
  | nil => rfl
  | cons p₀ rest =>
    by_cases h0 : t ≤ p₀.time
    · simp [getPointAtTime, pointAtTimeSpec, if_pos h0]
    · rw [pointAtTimeSpec_cons_loop t rest p₀ h0]
      simp [getPointAtTime, if_neg h0]

/-- The duration string `".s"` is matched by the regex but its token `"."`
has no digit: JS `parseFloat` yields `NaN` there (`parseDurationFinite` is
false), and the model parses it to `0` per spec §6.  This is the token class
on which the source's `buildTimePoints` deviates from the spec (claim C3). -/
theorem parseDuration_malformed_token :
    parseDurationFinite (some ".s") = false ∧ parseDurationSeconds (some ".s") = 0 := by
  constructor <;> decide

/-- Witness for C2 at concrete inputs: two leg oracles agreeing on all
small queries give the same result. -/
theorem calculateIdealStopovers_waypoint_cap_witness :
    calculateIdealStopovers ⟨0, 0, none⟩ ⟨1, 1, none⟩ none
      (some [⟨some "5400s", none, none⟩]) (fun _ _ => none) (fun _ => none) =
    calculateIdealStopovers ⟨0, 0, none⟩ ⟨1, 1, none⟩ none
      (some [⟨some "5400s", none, none⟩]) (fun _ _ => none) (fun _ => none) :=
  calculateIdealStopovers_waypoint_cap ⟨0, 0, none⟩ ⟨1, 1, none⟩ none
    (some [⟨some "5400s", none, none⟩]) (fun _ _ => none) (fun _ _ => none)
    (fun _ => none) (fun _ _ _ => rfl)

end Pomo
